import Mathlib

/-!
Shallow embedding of the Prehistoric Leap game (`main.py`).

Python floats (positions, velocities, timers) are modelled as rationals.
The transcendental `math.sin` is modelled as an abstract parameter
`sinF : ℚ → ℚ` (none of the verified properties depend on its values).
`pygame.Rect` stores integers obtained by truncating floats, modelled by
`pyInt`.  The pseudo-random draws (`random.randint`, `random.random`,
`random.uniform`) consumed during one frame are supplied explicitly by an
`Oracle` record.  The persisted high-score file is modelled by
`Option ℤ` (`none` = absent or unreadable).
-/

namespace PL

/-- Python `int(...)` applied to a float: truncation toward zero. -/
def pyInt (q : ℚ) : ℤ := Int.tdiv q.num (q.den : ℤ)

/-- Python `//` (floor division) of a float by a positive integer `n`,
as the floor of the exact quotient. -/
def pyFloor (q : ℚ) : ℤ := q.num / (q.den : ℤ)

/-- States of the `Game` controller: `START = 0`, `PLAYING = 1`,
`GAME_OVER = 2`. -/
inductive GState where
  | start
  | playing
  | gameOver
  deriving DecidableEq

/-- An integer rectangle, as `pygame.Rect(x, y, w, h)`. -/
structure PRect where
  x : ℤ
  y : ℤ
  w : ℤ
  h : ℤ
  deriving DecidableEq

/-- `pygame.Rect.colliderect`: true when the interiors overlap
(touching edges do not collide). -/
def PRect.colliderect (a b : PRect) : Bool :=
  decide (a.x < b.x + b.w) && decide (b.x < a.x + a.w) &&
    decide (a.y < b.y + b.h) && decide (b.y < a.y + a.h)

/-- The baby T-Rex.  Its horizontal position is the constant
`PLAYER_X = 150`; `PLAYER_W = PLAYER_H = 70`.  `flap_power = -6.0` and
`max_fall = 7.0` are constants of `Player.__init__`. -/
structure Player where
  y : ℚ
  vel : ℚ
  alive : Bool
  bob_t : ℚ
  gravity : ℚ
  deriving DecidableEq

/-- `Player.__init__`: `y = SCREEN_HEIGHT // 2 - PLAYER_H // 2 = 265`,
`vel = 0`, `alive = True`, `bob_t = 0`, default `gravity = 0.3`. -/
def Player.init : Player :=
  { y := 265, vel := 0, alive := true, bob_t := 0, gravity := 3/10 }

/-- `Player.rect`: `Rect(x + 8, int(y) + 8, PLAYER_W - 16, PLAYER_H - 16)`. -/
def Player.rect (p : Player) : PRect :=
  { x := 150 + 8, y := pyInt p.y + 8, w := 70 - 16, h := 70 - 16 }

/-- `Player.flap`: set velocity to `flap_power = -6` when alive. -/
def Player.flap (p : Player) : Player :=
  if p.alive then { p with vel := -6 } else p

/-- `Player.update(gravity, grace)`: gravity integration (suspended under
grace), fall-speed clamp at `max_fall = 7`, position integration, ceiling
clamp at 0 (zeroing velocity), and floor death at
`SCREEN_HEIGHT - PLAYER_H = 530`. -/
def Player.update (p : Player) (gravity : ℚ) (grace : Bool) : Player :=
  let vel1 : ℚ := if grace then 0 else min (p.vel + gravity) 7
  let y1 : ℚ := p.y + vel1
  let y2 : ℚ := if y1 < 0 then 0 else y1
  let vel2 : ℚ := if y1 < 0 then 0 else vel1
  if 530 < y2 then
    { p with gravity := gravity, vel := vel2, y := 530, alive := false }
  else
    { p with gravity := gravity, vel := vel2, y := y2 }

/-- `Player.bob` (start screen): `bob_t += 0.04`,
`y = 265 + sin(bob_t) * 18`. -/
def Player.bob (sinF : ℚ → ℚ) (p : Player) : Player :=
  let t : ℚ := p.bob_t + 1/25
  { p with bob_t := t, y := 265 + sinF t * 18 }

/-- `Player.reset`. -/
def Player.reset (p : Player) : Player :=
  { p with y := 265, vel := 0, alive := true, bob_t := 0 }

/-- A top stalactite + bottom stalagmite pair.  `WALL_WIDTH = 72`. -/
structure WallPair where
  x : ℚ
  speed : ℚ
  gap_size : ℤ
  gap_y : ℤ
  scored : Bool
  deriving DecidableEq

/-- `WallPair.__init__` with the gap centre made explicit: the caller (or
the random oracle) supplies the `random.randint(min_gy, max_gy)` result. -/
def WallPair.init (x : ℚ) (gap_size : ℤ) (speed : ℚ) (gap_y : ℤ) : WallPair :=
  { x := x, speed := speed, gap_size := gap_size, gap_y := gap_y,
    scored := false }

/-- Stored `_top_h = max(10, gap_y - gap_size // 2)`.  Note `(/ : ℤ → ℤ → ℤ)`
agrees with Python `//` for the positive divisor 2. -/
def WallPair.top_h (w : WallPair) : ℤ := max 10 (w.gap_y - w.gap_size / 2)

/-- Stored `_bot_start = gap_y + gap_size // 2`. -/
def WallPair.bot_start (w : WallPair) : ℤ := w.gap_y + w.gap_size / 2

/-- Collision rectangle of the top pillar body (tips are cosmetic). -/
def WallPair.top_rect (w : WallPair) : PRect :=
  { x := pyInt w.x, y := 0, w := 72, h := w.top_h }

/-- Collision rectangle of the bottom pillar body. -/
def WallPair.bot_rect (w : WallPair) : PRect :=
  { x := pyInt w.x, y := w.bot_start, w := 72, h := 600 - w.bot_start }

/-- `WallPair.update`: scroll left by `speed`. -/
def WallPair.update (w : WallPair) : WallPair := { w with x := w.x - w.speed }

/-- `WallPair.off_screen`. -/
def WallPair.off_screen (w : WallPair) : Bool := decide (w.x + 72 < -10)

/-- `WallPair.collides`: body rectangles only. -/
def WallPair.collides (w : WallPair) (player_rect : PRect) : Bool :=
  w.top_rect.colliderect player_rect || w.bot_rect.colliderect player_rect

/-- A raptor.  `ENEMY_W = ENEMY_H = 70`. -/
structure Enemy where
  x : ℚ
  base_y : ℚ
  y : ℚ
  speed : ℚ
  wave_t : ℚ
  wave_amp : ℚ
  wave_spd : ℚ
  deriving DecidableEq

/-- `Enemy.__init__` with the random draws made explicit:
`x = SCREEN_WIDTH + randint(20, 120)`, `base_y = randint(40, 490)`,
random phase/amplitude/frequency. -/
def Enemy.init (speed : ℚ) (xoff base_y : ℤ) (wave_t : ℚ) (wave_amp : ℤ)
    (wave_spd : ℚ) : Enemy :=
  { x := 800 + xoff, base_y := base_y, y := base_y, speed := speed,
    wave_t := wave_t, wave_amp := wave_amp, wave_spd := wave_spd }

/-- `Enemy.rect`: inset by 10 on every side. -/
def Enemy.rect (e : Enemy) : PRect :=
  { x := pyInt e.x + 10, y := pyInt e.y + 10, w := 70 - 20, h := 70 - 20 }

/-- `Enemy.update`: scroll left, advance the wave, recompute `y`. -/
def Enemy.update (sinF : ℚ → ℚ) (e : Enemy) : Enemy :=
  let t : ℚ := e.wave_t + e.wave_spd
  { e with x := e.x - e.speed, wave_t := t,
           y := e.base_y + sinF t * e.wave_amp }

/-- `Enemy.off_screen`. -/
def Enemy.off_screen (e : Enemy) : Bool := decide (e.x + 70 < -10)

/-- `Enemy.collides`. -/
def Enemy.collides (e : Enemy) (player_rect : PRect) : Bool :=
  e.rect.colliderect player_rect

/-- A collectible gold coin.  `COIN_W = COIN_H = 32`. -/
structure Coin where
  x : ℚ
  base_y : ℚ
  y : ℚ
  speed : ℚ
  bob_t : ℚ
  deriving DecidableEq

/-- `Coin.__init__` with the random bob phase made explicit. -/
def Coin.init (x y : ℚ) (speed : ℚ) (bob_t : ℚ) : Coin :=
  { x := x, base_y := y, y := y, speed := speed, bob_t := bob_t }

/-- `Coin.rect`: inset by 4 on every side. -/
def Coin.rect (c : Coin) : PRect :=
  { x := pyInt c.x + 4, y := pyInt c.y + 4, w := 32 - 8, h := 32 - 8 }

/-- `Coin.update`: scroll left, advance the bob (`+= 0.08`), recompute `y`. -/
def Coin.update (sinF : ℚ → ℚ) (c : Coin) : Coin :=
  let t : ℚ := c.bob_t + 2/25
  { c with x := c.x - c.speed, bob_t := t, y := c.base_y + sinF t * 6 }

/-- `Coin.off_screen`. -/
def Coin.off_screen (c : Coin) : Bool := decide (c.x + 32 < -10)

/-- `Coin.collides`. -/
def Coin.collides (c : Coin) (player_rect : PRect) : Bool :=
  c.rect.colliderect player_rect

/-- One entry of `levels.json`.  Every tunable is optional; the `.get`
defaults of `main.py` are applied by the `…D` accessors below. -/
structure Level where
  score_threshold : Option ℤ := none
  gravity : Option ℚ := none
  wall_speed : Option ℚ := none
  gap_size : Option ℤ := none
  wall_spacing : Option ℚ := none
  enemy_speed : Option ℚ := none
  enemy_spawn_frames : Option ℕ := none
  coin_spawn_chance : Option ℚ := none
  max_coins_on_screen : Option ℤ := none
  coin_speed_multiplier : Option ℚ := none
  coin_min_gap_from_walls_px : Option ℚ := none
  coin_y_padding_px : Option ℤ := none
  coin_value : Option ℤ := none
  deriving DecidableEq

/-- `lv.get("score_threshold", 999999)`. -/
def Level.thresholdD (lv : Level) : ℤ := lv.score_threshold.getD 999999

/-- `lv.get("gravity", 0.3)`. -/
def Level.gravityD (lv : Level) : ℚ := lv.gravity.getD (3/10)

/-- `lv.get("wall_speed", 2.0)`. -/
def Level.wall_speedD (lv : Level) : ℚ := lv.wall_speed.getD 2

/-- `lv.get("gap_size", 200)`. -/
def Level.gap_sizeD (lv : Level) : ℤ := lv.gap_size.getD 200

/-- `lv.get("wall_spacing", 350)`. -/
def Level.wall_spacingD (lv : Level) : ℚ := lv.wall_spacing.getD 350

/-- `lv.get("enemy_speed", 1.5)`. -/
def Level.enemy_speedD (lv : Level) : ℚ := lv.enemy_speed.getD (3/2)

/-- `lv.get("enemy_spawn_frames", 500)`. -/
def Level.enemy_spawn_framesD (lv : Level) : ℕ :=
  lv.enemy_spawn_frames.getD 500

/-- `lv.get("coin_spawn_chance", 0.5)`. -/
def Level.coin_spawn_chanceD (lv : Level) : ℚ :=
  lv.coin_spawn_chance.getD (1/2)

/-- `lv.get("max_coins_on_screen", 3)`. -/
def Level.max_coins_on_screenD (lv : Level) : ℤ :=
  lv.max_coins_on_screen.getD 3

/-- `lv.get("coin_speed_multiplier", 1.0)`. -/
def Level.coin_speed_multiplierD (lv : Level) : ℚ :=
  lv.coin_speed_multiplier.getD 1

/-- `lv.get("coin_min_gap_from_walls_px", 100)`. -/
def Level.coin_min_gapD (lv : Level) : ℚ :=
  lv.coin_min_gap_from_walls_px.getD 100

/-- `lv.get("coin_y_padding_px", 50)`. -/
def Level.coin_y_paddingD (lv : Level) : ℤ := lv.coin_y_padding_px.getD 50

/-- `lv.get("coin_value", 1)`. -/
def Level.coin_valueD (lv : Level) : ℤ := lv.coin_value.getD 1

/-- Index computed by `Game._level`: the first entry whose
`score_threshold` strictly exceeds the score, else the last index.
(`main.py` raises on an empty table; the `[]` case is unreachable.) -/
def levelIndex (levels : List Level) (score : ℤ) : ℕ :=
  match levels with
  | [] => 0
  | lv :: rest =>
    if score < lv.thresholdD then 0
    else
      match rest with
      | [] => 0
      | _ :: _ => levelIndex rest score + 1

/-- The entry returned by `Game._level`. -/
def levelGet (levels : List Level) (score : ℤ) : Level :=
  levels.getD (levelIndex levels score) {}

/-- `load_highscore`: the stored integer, or 0 when the file is absent or
unreadable (`none`). -/
def load_highscore (file : Option ℤ) : ℤ := file.getD 0

/-- `save_highscore`: overwrite only when the new score strictly exceeds
the stored value; returns the new file contents and the success flag. -/
def save_highscore (file : Option ℤ) (score : ℤ) : Option ℤ × Bool :=
  if load_highscore file < score then (some score, true) else (file, false)

/-- The mutable state owned by `Game` (presentation-only fields such as
fonts, sounds and button hover flags are omitted; `bgX` is the scrolling
background offset; `stored` is the high-score file). -/
structure Game where
  state : GState
  player : Player
  walls : List WallPair
  enemies : List Enemy
  coins : List Coin
  score : ℕ
  coinsCollected : ℤ
  graceFrames : ℕ
  enemyTimer : ℕ
  levelIdx : ℕ
  bgX : ℚ
  stored : Option ℤ
  highScore : ℤ
  deriving DecidableEq

/-- The random draws consumed by at most one PLAYING frame. -/
structure Oracle where
  wallGapY : ℤ
  coinR : ℚ
  coinJx : ℤ
  coinJy : ℤ
  coinBobT : ℚ
  enemyXoff : ℤ
  enemyBaseY : ℤ
  enemyWaveT : ℚ
  enemyWaveAmp : ℤ
  enemyWaveSpd : ℚ
  deriving DecidableEq

/-- Background drift with wrap-around:
`bg_x -= d; if bg_x <= -SCREEN_WIDTH: bg_x += SCREEN_WIDTH`. -/
def bgStep (bx d : ℚ) : ℚ :=
  let b : ℚ := bx - d
  if b ≤ -800 then b + 800 else b

/-- `Game._start_game`: full reset and transition to PLAYING. -/
def Game.startGame (g : Game) : Game :=
  { g with state := GState.playing, player := g.player.reset,
           walls := [], enemies := [], coins := [],
           score := 0, coinsCollected := 0, graceFrames := 50,
           enemyTimer := 0, levelIdx := 0 }

/-- `Game._game_over`: transition to GAME_OVER, kill the player, persist
the high score when it beats the stored record. -/
def Game.toGameOver (g : Game) : Game :=
  let r := save_highscore g.stored (g.score : ℤ)
  { g with state := GState.gameOver,
           player := { g.player with alive := false },
           stored := r.1,
           highScore := if r.2 then (g.score : ℤ) else g.highScore }

/-- The flap branch of `Game.handle_events` during PLAYING: flap, then
cancel any remaining grace frames. -/
def Game.flapInput (g : Game) : Game :=
  if g.state = GState.playing then
    { g with player := g.player.flap,
             graceFrames := if 0 < g.graceFrames then 0 else g.graceFrames }
  else g

/-- `Game._quit`: final write of `max(score, high_score)` to the store. -/
def Game.quitStore (g : Game) : Option ℤ :=
  (save_highscore g.stored (max (g.score : ℤ) g.highScore)).1

/-- The scoring-and-update treatment of a single wall inside the wall
loop of `Game.update`: move it, then score it once its trailing edge
(`x + WALL_WIDTH`) has passed the player's fixed `x = 150`; returns the
updated wall and the score increment. -/
def processWall (w : WallPair) : WallPair × ℕ :=
  let w1 := w.update
  if w1.scored = false ∧ w1.x + 72 < 150 then
    ({ w1 with scored := true }, 1)
  else (w1, 0)

/-- The wall loop of `Game.update`: per wall, update + score + collision
check + off-screen clean-up, with the early `return` on a collision
(walls after the colliding one are left untouched that frame).  Returns
the new list, the total score increment, and the collision flag. -/
def wallPhase (prect : PRect) : List WallPair → List WallPair × ℕ × Bool
  | [] => ([], 0, false)
  | w :: ws =>
    let pw := processWall w
    if pw.1.collides prect then (pw.1 :: ws, pw.2, true)
    else
      let r := wallPhase prect ws
      ((if pw.1.off_screen then r.1 else pw.1 :: r.1), pw.2 + r.2.1, r.2.2)

/-- The enemy loop of `Game.update`: update + collision check (early
return) + off-screen clean-up. -/
def enemyPhase (sinF : ℚ → ℚ) (prect : PRect) :
    List Enemy → List Enemy × Bool
  | [] => ([], false)
  | e :: es =>
    let e1 := Enemy.update sinF e
    if e1.collides prect then (e1 :: es, true)
    else
      let r := enemyPhase sinF prect es
      ((if e1.off_screen then r.1 else e1 :: r.1), r.2)

/-- The coin loop of `Game.update`: update, collect on player contact
(credit `coin_value`, remove), otherwise drop when off screen.  Returns
the surviving coins and the total credited bonus. -/
def coinPhase (sinF : ℚ → ℚ) (prect : PRect) (value : ℤ) :
    List Coin → List Coin × ℤ
  | [] => ([], 0)
  | c :: cs =>
    let c1 := Coin.update sinF c
    let r := coinPhase sinF prect value cs
    if c1.collides prect then (r.1, value + r.2)
    else if c1.off_screen then (r.1, r.2)
    else (c1 :: r.1, r.2)

/-- Coin spawning (evaluated only in the frame a wall was spawned):
probability gate, concurrency cap, placement centred in the open space
with jitter and clamps. -/
def coinTrySpawn (lv : Level) (o : Oracle) (walls : List WallPair)
    (coins : List Coin) (wall_speed spacing : ℚ) : List Coin :=
  if o.coinR < lv.coin_spawn_chanceD ∧
      (coins.length : ℤ) < lv.max_coins_on_screenD then
    match walls.getLast? with
    | none => coins
    | some latest =>
      let space : ℚ := spacing + 40 - 72
      let coin_x0 : ℚ :=
        latest.x + 72 + (pyFloor (space / 2) : ℚ) - 16 + (o.coinJx : ℚ)
      let coin_x : ℚ := max coin_x0 (latest.x + 72 + lv.coin_min_gapD)
      let coin_y0 : ℤ := latest.gap_y + o.coinJy - 16
      let coin_y : ℤ :=
        max lv.coin_y_paddingD (min (600 - lv.coin_y_paddingD - 32) coin_y0)
      coins ++ [Coin.init coin_x (coin_y : ℚ)
        (wall_speed * lv.coin_speed_multiplierD) o.coinBobT]
  else coins

/-- The PLAYING branch of `Game.update`, in the source's strict order:
level lookup, grace countdown, player physics (death → early return),
background parallax, wall spawn, wall loop (score / collision /
clean-up, collision → early return), enemy spawn timer, enemy loop
(collision → early return), coin spawn (only if a wall just spawned),
coin loop. -/
def playingStep (sinF : ℚ → ℚ) (levels : List Level) (o : Oracle)
    (g : Game) : Game :=
  let lv := levelGet levels (g.score : ℤ)
  let lidx := levelIndex levels (g.score : ℤ)
  let grace : Bool := decide (0 < g.graceFrames)
  let gf := if grace then g.graceFrames - 1 else g.graceFrames
  let p := Player.update g.player lv.gravityD grace
  if p.alive = false then
    Game.toGameOver { g with player := p, graceFrames := gf,
                             levelIdx := lidx }
  else
    let wall_speed := lv.wall_speedD
    let bg2 := bgStep g.bgX (wall_speed * (1/4))
    let gap_size : ℤ := max lv.gap_sizeD (70 + 80)
    let spacing := lv.wall_spacingD
    let doSpawn : Bool :=
      match g.walls.getLast? with
      | none => true
      | some w => decide (w.x < 800 - spacing)
    let walls1 :=
      if doSpawn then
        g.walls ++ [WallPair.init (800 + 40) gap_size wall_speed o.wallGapY]
      else g.walls
    let prect := p.rect
    let wres := wallPhase prect walls1
    let score2 := g.score + wres.2.1
    if wres.2.2 then
      Game.toGameOver { g with player := p, graceFrames := gf,
                               levelIdx := lidx, bgX := bg2,
                               walls := wres.1, score := score2 }
    else
      let timer1 := g.enemyTimer + 1
      let spawnE : Bool := decide (lv.enemy_spawn_framesD ≤ timer1)
      let enemies1 :=
        if spawnE then
          g.enemies ++ [Enemy.init lv.enemy_speedD o.enemyXoff o.enemyBaseY
            o.enemyWaveT o.enemyWaveAmp o.enemyWaveSpd]
        else g.enemies
      let timer2 := if spawnE then 0 else timer1
      let eres := enemyPhase sinF prect enemies1
      if eres.2 then
        Game.toGameOver { g with player := p, graceFrames := gf,
                                 levelIdx := lidx, bgX := bg2,
                                 walls := wres.1, score := score2,
                                 enemies := eres.1, enemyTimer := timer2 }
      else
        let coins1 :=
          if doSpawn then
            coinTrySpawn lv o wres.1 g.coins wall_speed spacing
          else g.coins
        let cres := coinPhase sinF prect lv.coin_valueD coins1
        { g with player := p, graceFrames := gf, levelIdx := lidx,
                 bgX := bg2, walls := wres.1, score := score2,
                 enemies := eres.1, enemyTimer := timer2,
                 coins := cres.1,
                 coinsCollected := g.coinsCollected + cres.2 }

/-- `Game.update`: dispatch on the state (the `if/elif` chain of the
source).  START only bobs the player and drifts the background;
GAME_OVER only drifts the background. -/
def Game.update (sinF : ℚ → ℚ) (levels : List Level) (o : Oracle)
    (g : Game) : Game :=
  if g.state = GState.start then
    { g with player := Player.bob sinF g.player, bgX := bgStep g.bgX (3/10) }
  else if g.state = GState.playing then
    playingStep sinF levels o g
  else if g.state = GState.gameOver then
    { g with bgX := bgStep g.bgX (3/20) }
  else g

/-! ### Shared concrete fixtures used by witnesses and worked examples -/

/-- A one-entry level table in which every tunable takes its default. -/
def levels0 : List Level := [{}]

/-- A fixed random oracle (its `coinR = 1` fails the coin-spawn gate). -/
def oracle0 : Oracle :=
  { wallGapY := 300, coinR := 1, coinJx := 0, coinJy := 0, coinBobT := 0,
    enemyXoff := 0, enemyBaseY := 100, enemyWaveT := 0, enemyWaveAmp := 30,
    enemyWaveSpd := 1/40 }

/-- A concrete stand-in for `math.sin`. -/
def sin0 : ℚ → ℚ := fun _ => 0

/-- A baseline PLAYING session state. -/
def gBase : Game :=
  { state := GState.playing, player := Player.init, walls := [],
    enemies := [], coins := [], score := 0, coinsCollected := 0,
    graceFrames := 0, enemyTimer := 0, levelIdx := 0, bgX := 0,
    stored := none, highScore := 0 }

/-- A PLAYING state whose next physics step drops the player past the
floor. -/
def gDead : Game := { gBase with player := { Player.init with y := 600 } }

/-- A GAME_OVER state. -/
def gOver0 : Game := { gBase with state := GState.gameOver }

/-- A PLAYING state inside the grace period. -/
def g10 : Game := { gBase with graceFrames := 50 }

/-- The wall of the §8 worked example, one frame before reaching
x = 150. -/
def wallC2 : WallPair := WallPair.init 152 200 2 380

/-- The worked-example PLAYING state: player hovering at y = 200 under
grace, the example wall approaching. -/
def g2start : Game :=
  { gBase with player := { Player.init with y := 200 },
               walls := [wallC2], graceFrames := 5 }

/-- The state after the worked-example frame: the wall has moved to
x = 150, its body overlaps the player's hit-box, so the frame ends in
GAME_OVER with the player killed, the spawned far wall appended, and
the enemy/coin phases skipped. -/
def g2end : Game :=
  { state := GState.gameOver,
    player := { y := 200, vel := 0, alive := false, bob_t := 0,
                gravity := 3/10 },
    walls := [WallPair.init 150 200 2 380, WallPair.init 840 200 2 300],
    enemies := [], coins := [], score := 0, coinsCollected := 0,
    graceFrames := 4, enemyTimer := 0, levelIdx := 0, bgX := -(1/2),
    stored := none, highScore := 0 }

/-! ### Evaluation lemmas for pyInt on numerals -/

@[simp] theorem pyInt_ofNat (n : ℕ) :
    pyInt (no_index (OfNat.ofNat n) : ℚ) = OfNat.ofNat n := by
  rw [pyInt, Rat.num_ofNat, Rat.den_ofNat]
  exact Int.tdiv_one _

/-! ### Level-selection lemmas (Game._level) -/

theorem levelIndex_singleton (lv : Level) (s : ℤ) :
    levelIndex [lv] s = 0 := by
  simp [levelIndex]

theorem levelIndex_cons_cons (lv lv2 : Level) (rest : List Level) (s : ℤ) :
    levelIndex (lv :: lv2 :: rest) s =
      if s < lv.thresholdD then 0 else levelIndex (lv2 :: rest) s + 1 := rfl

theorem levelIndex_cons_of_lt (lv : Level) (rest : List Level) (s : ℤ)
    (h : s < lv.thresholdD) : levelIndex (lv :: rest) s = 0 := by
  cases rest with
  | nil => exact levelIndex_singleton lv s
  | cons lv2 rest2 => simp [levelIndex_cons_cons, h]

theorem levelIndex_mono : ∀ (levels : List Level) (sa sb : ℤ), sa ≤ sb →
    levelIndex levels sa ≤ levelIndex levels sb := by
  intro levels
  induction levels with
  | nil => intro sa sb _; exact Nat.le_refl 0
  | cons lv rest ih =>
    intro sa sb h
    cases rest with
    | nil => simp [levelIndex_singleton]
    | cons lv2 rest2 =>
      rw [levelIndex_cons_cons, levelIndex_cons_cons]
      by_cases ha : sa < lv.thresholdD
      · simp [ha]
      · have hb : ¬ sb < lv.thresholdD := by omega
        simp only [if_neg ha, if_neg hb]
        exact Nat.add_le_add_right (ih sa sb h) 1

theorem levelIndex_first : ∀ (levels : List Level) (s : ℤ) (i : ℕ),
    i < levels.length → s < ((levels.getD i {}).thresholdD) →
    levelIndex levels s ≤ i := by
  intro levels
  induction levels with
  | nil => intro s i hi _; simp at hi
  | cons lv rest ih =>
    intro s i hi hlt
    by_cases ha : s < lv.thresholdD
    · simp [levelIndex_cons_of_lt lv rest s ha]
    · cases i with
      | zero => simp only [List.getD_cons_zero] at hlt; exact absurd hlt ha
      | succ j =>
        cases rest with
        | nil => simp at hi
        | cons lv2 rest2 =>
          rw [levelIndex_cons_cons, if_neg ha]
          have hj : j < (lv2 :: rest2).length := by
            simpa [Nat.succ_lt_succ_iff] using hi
          have := ih s j hj (by simpa using hlt)
          omega

theorem levelIndex_found : ∀ (levels : List Level) (s : ℤ) (i : ℕ),
    i < levels.length → s < ((levels.getD i {}).thresholdD) →
    s < (levelGet levels s).thresholdD := by
  intro levels
  induction levels with
  | nil => intro s i hi _; simp at hi
  | cons lv rest ih =>
    intro s i hi hlt
    by_cases ha : s < lv.thresholdD
    · rw [levelGet, levelIndex_cons_of_lt lv rest s ha]
      simpa using ha
    · cases i with
      | zero => simp only [List.getD_cons_zero] at hlt; exact absurd hlt ha
      | succ j =>
        cases rest with
        | nil => simp at hi
        | cons lv2 rest2 =>
          have hj : j < (lv2 :: rest2).length := by
            simpa [Nat.succ_lt_succ_iff] using hi
          have hr := ih s j hj (by simpa using hlt)
          rw [levelGet, levelIndex_cons_cons, if_neg ha,
            List.getD_cons_succ]
          exact hr

theorem levelIndex_last : ∀ (levels : List Level) (s : ℤ),
    (∀ lv ∈ levels, lv.thresholdD ≤ s) →
    levelIndex levels s = levels.length - 1 := by
  intro levels
  induction levels with
  | nil => intro s _; rfl
  | cons lv rest ih =>
    intro s hall
    have ha : ¬ s < lv.thresholdD := by
      have := hall lv (List.mem_cons_self lv rest); omega
    cases rest with
    | nil => simp [levelIndex_singleton]
    | cons lv2 rest2 =>
      have hr := ih s (fun l hl => hall l (List.mem_cons_of_mem lv hl))
      rw [levelIndex_cons_cons, if_neg ha, hr]
      simp only [List.length_cons]
      omega

theorem levelIndex_lt_length : ∀ (levels : List Level) (s : ℤ),
    levels ≠ [] → levelIndex levels s < levels.length := by
  intro levels
  induction levels with
  | nil => intro s h; exact absurd rfl h
  | cons lv rest ih =>
    intro s _
    cases rest with
    | nil => simp [levelIndex_singleton]
    | cons lv2 rest2 =>
      by_cases ha : s < lv.thresholdD
      · simp [levelIndex_cons_of_lt lv _ s ha]
      · have := ih s (by simp)
        rw [levelIndex_cons_cons, if_neg ha]
        simp only [List.length_cons] at this ⊢
        omega

/-! ### Small projection lemmas -/

theorem WallPair.update_scored (w : WallPair) :
    (w.update).scored = w.scored := rfl

theorem WallPair.update_x (w : WallPair) :
    (w.update).x = w.x - w.speed := rfl

theorem processWall_eq (w : WallPair) :
    processWall w =
      if (w.update).scored = false ∧ (w.update).x + 72 < 150 then
        ({ w.update with scored := true }, 1)
      else (w.update, 0) := rfl

theorem Game.toGameOver_state (g : Game) :
    (g.toGameOver).state = GState.gameOver := rfl

theorem Game.toGameOver_player_y (g : Game) :
    (g.toGameOver).player.y = g.player.y := rfl

theorem Game.toGameOver_player_vel (g : Game) :
    (g.toGameOver).player.vel = g.player.vel := rfl

/-- The player's kinematics after a PLAYING frame are exactly those of
the physics update (every later mutation in the frame touches only the
alive flag). -/
theorem playingStep_player_kin (sinF : ℚ → ℚ) (levels : List Level)
    (o : Oracle) (g : Game) :
    (playingStep sinF levels o g).player.y =
      (Player.update g.player ((levelGet levels (g.score : ℤ)).gravityD)
        (decide (0 < g.graceFrames))).y ∧
    (playingStep sinF levels o g).player.vel =
      (Player.update g.player ((levelGet levels (g.score : ℤ)).gravityD)
        (decide (0 < g.graceFrames))).vel := by
  simp only [playingStep]
  split_ifs <;> exact ⟨rfl, rfl⟩

/-! ### Claim theorems -/

/-- Claim C1 (corrected): the gap-centre range does guarantee both body
heights are at least the margin 70, but because `gap_size // 2` is taken
twice, `top_h + gap_size + bot_h = 600 + gap_size % 2`, which equals the
screen height 600 only for even gap sizes. -/
theorem c1_wall_geometry (gap_size gap_y : ℤ)
    (hlo : 70 + gap_size / 2 ≤ gap_y)
    (hhi : gap_y ≤ 600 - 70 - gap_size / 2) :
    ∀ (x speed : ℚ),
      70 ≤ (WallPair.init x gap_size speed gap_y).top_h ∧
      70 ≤ 600 - (WallPair.init x gap_size speed gap_y).bot_start ∧
      (WallPair.init x gap_size speed gap_y).top_h + gap_size +
          (600 - (WallPair.init x gap_size speed gap_y).bot_start) =
        600 + gap_size % 2 := by
  intro x speed
  simp only [WallPair.init, WallPair.top_h, WallPair.bot_start]
  omega

/-- Claim C1, counterexample to the claim as stated: with the odd gap
size 201 and the in-range gap centre 170 (the range is [170, 430]), the
heights sum with the gap to 601, not the screen height 600. -/
theorem c1_counterexample :
    (70 + (201 : ℤ) / 2 ≤ 170 ∧ (170 : ℤ) ≤ 600 - 70 - 201 / 2) ∧
    (WallPair.init 840 201 2 170).top_h + 201 +
        (600 - (WallPair.init 840 201 2 170).bot_start) = 601 := by
  constructor
  · constructor <;> decide
  · decide

/-- Claim C1, witness: the amended statement at gap size 200 and gap
centre 300. -/
theorem c1_witness :
    70 ≤ (WallPair.init 840 200 2 300).top_h ∧
    70 ≤ 600 - (WallPair.init 840 200 2 300).bot_start ∧
    (WallPair.init 840 200 2 300).top_h + 200 +
        (600 - (WallPair.init 840 200 2 300).bot_start) = 600 + 200 % 2 :=
  c1_wall_geometry 200 300 (by decide) (by decide) 840 2

/-- Claim C5 (confirmed): `Game._level` returns the first entry whose
`score_threshold` strictly exceeds the score (whenever some entry does),
the last entry when none does, and the selected index is monotone in the
score. -/
theorem c5_level_selection (levels : List Level) (hne : levels ≠ [])
    (sa sb : ℤ) (hab : sa ≤ sb) :
    (∀ i, i < levels.length → sa < ((levels.getD i {}).thresholdD) →
      levelIndex levels sa ≤ i ∧ sa < (levelGet levels sa).thresholdD) ∧
    ((∀ lv ∈ levels, lv.thresholdD ≤ sa) →
      levelIndex levels sa = levels.length - 1) ∧
    levelIndex levels sa < levels.length ∧
    levelIndex levels sa ≤ levelIndex levels sb := by
  refine ⟨?_, ?_, ?_, ?_⟩
  · intro i hi hlt
    exact ⟨levelIndex_first levels sa i hi hlt,
           levelIndex_found levels sa i hi hlt⟩
  · exact levelIndex_last levels sa
  · exact levelIndex_lt_length levels sa hne
  · exact levelIndex_mono levels sa sb hab

/-- Claim C5, witness: a two-tier table with thresholds 5 and 10 at
scores 3 and 7. -/
theorem c5_witness :
    levelIndex [{ score_threshold := some 5 },
      { score_threshold := some 10 }] 3 ≤
      levelIndex [{ score_threshold := some 5 },
        { score_threshold := some 10 }] 7 ∧
    levelIndex [{ score_threshold := some 5 },
      { score_threshold := some 10 }] 3 ≤ 0 :=
  ⟨(c5_level_selection _ (by decide) 3 7 (by decide)).2.2.2,
   ((c5_level_selection _ (by decide) 3 7 (by decide)).1 0 (by decide)
     (by decide)).1⟩

/-- Claim C6 (confirmed): `Game._start_game` resets score, bonus,
collections, grace period, spawn timer, level index, and the player. -/
theorem c6_restart (g : Game) :
    (g.startGame).state = GState.playing ∧
    (g.startGame).score = 0 ∧
    (g.startGame).coinsCollected = 0 ∧
    (g.startGame).walls = [] ∧
    (g.startGame).enemies = [] ∧
    (g.startGame).coins = [] ∧
    0 < (g.startGame).graceFrames ∧
    (g.startGame).enemyTimer = 0 ∧
    (g.startGame).levelIdx = 0 ∧
    (g.startGame).player.y = 265 ∧
    (g.startGame).player.vel = 0 ∧
    (g.startGame).player.alive = true := by
  simp [Game.startGame, Player.reset]

/-- Claim C7 (confirmed): reading an absent store yields 0; a write
stores exactly the maximum of the stored value and the new score (so the
stored value never decreases, also on the quit path), and any sequence
of writes leaves the running maximum. -/
theorem c7_highscore :
    load_highscore none = 0 ∧
    (∀ (file : Option ℤ) (s : ℤ),
      load_highscore (save_highscore file s).1 =
        max (load_highscore file) s) ∧
    (∀ (file : Option ℤ) (s : ℤ),
      load_highscore file ≤ load_highscore (save_highscore file s).1) ∧
    (∀ (scores : List ℤ) (file : Option ℤ),
      load_highscore
          (scores.foldl (fun f s => (save_highscore f s).1) file) =
        scores.foldl max (load_highscore file)) ∧
    (∀ g : Game, load_highscore g.stored ≤ load_highscore g.quitStore) := by
  have h2 : ∀ (file : Option ℤ) (s : ℤ),
      load_highscore (save_highscore file s).1 =
        max (load_highscore file) s := by
    intro f s
    unfold save_highscore
    by_cases h : load_highscore f < s
    · rw [if_pos h]
      show s = max (load_highscore f) s
      omega
    · rw [if_neg h]
      show load_highscore f = max (load_highscore f) s
      omega
  have h4 : ∀ (scores : List ℤ) (file : Option ℤ),
      load_highscore
          (scores.foldl (fun f s => (save_highscore f s).1) file) =
        scores.foldl max (load_highscore file) := by
    intro scores
    induction scores with
    | nil => intro f; rfl
    | cons s rest ih =>
      intro f
      simp only [List.foldl_cons]
      rw [ih, h2]
  refine ⟨rfl, h2, ?_, h4, ?_⟩
  · intro f s
    rw [h2]
    exact le_max_left _ _
  · intro g
    show load_highscore g.stored ≤
      load_highscore (save_highscore g.stored
        (max (g.score : ℤ) g.highScore)).1
    rw [h2]
    exact le_max_left _ _

/-- Claim C3 (confirmed): after every physics update the y-position lies
in [0, 530] = [0, screen_height − player_height]; a step whose
integrated position would pass the floor clamps y to 530 and sets
`alive := false`; a PLAYING frame whose physics leaves the player dead
transitions to GAME_OVER that same frame, and GAME_OVER frames leave the
player untouched — so the floor death fires exactly once per life. -/
theorem c3_player_floor :
    (∀ (p : Player) (grav : ℚ) (grace : Bool),
      0 ≤ (Player.update p grav grace).y ∧
        (Player.update p grav grace).y ≤ 530) ∧
    (∀ (p : Player) (grav : ℚ) (grace : Bool),
      530 < p.y + (if grace then (0 : ℚ) else min (p.vel + grav) 7) →
      (Player.update p grav grace).y = 530 ∧
        (Player.update p grav grace).alive = false) ∧
    (∀ (sinF : ℚ → ℚ) (levels : List Level) (o : Oracle) (g : Game),
      g.state = GState.playing →
      (Player.update g.player ((levelGet levels (g.score : ℤ)).gravityD)
          (decide (0 < g.graceFrames))).alive = false →
      (Game.update sinF levels o g).state = GState.gameOver) ∧
    (∀ (sinF : ℚ → ℚ) (levels : List Level) (o : Oracle) (g : Game),
      g.state = GState.gameOver →
      (Game.update sinF levels o g).player = g.player) := by
  refine ⟨?_, ?_, ?_, ?_⟩
  · intro p grav grace
    simp only [Player.update]
    split_ifs with h1 h2 <;> constructor <;> simp <;> linarith
  · intro p grav grace h
    simp only [Player.update]
    split_ifs at h ⊢ with h1 h2 <;> simp <;> linarith
  · intro sinF levels o g hst hdead
    simp only [Game.update, hst]
    simp only [playingStep]
    rw [hdead]
    simp [Game.toGameOver]
  · intro sinF levels o g hst
    simp only [Game.update, hst]
    simp

/-- Claim C3, witness: a player at y = 600 with gravity 1 is clamped to
the floor and killed; a concrete dead-physics PLAYING frame reaches
GAME_OVER; a concrete GAME_OVER frame keeps the player. -/
theorem c3_witness :
    ((Player.update { Player.init with y := 600 } 1 false).y = 530 ∧
      (Player.update { Player.init with y := 600 } 1 false).alive =
        false) ∧
    (Game.update sin0 levels0 oracle0 gDead).state = GState.gameOver ∧
    (Game.update sin0 levels0 oracle0 gOver0).player = gOver0.player := by
  refine ⟨c3_player_floor.2.1 _ 1 false ?_,
          c3_player_floor.2.2.1 sin0 levels0 oracle0 gDead rfl ?_,
          c3_player_floor.2.2.2 sin0 levels0 oracle0 gOver0 rfl⟩
  · norm_num [Player.init, min_def]
  · norm_num [gDead, gBase, Player.init, Player.update, levels0, levelGet,
      levelIndex, Level.gravityD, Level.thresholdD, min_def]

/-- Claim C4 (confirmed): inside the wall loop, a wall whose trailing
edge `x + 72` has just passed the player's fixed `x = 150` awards
exactly 1 and gets its scored flag set; a wall already scored awards 0
and stays scored; a wall not yet past awards 0 and keeps its flag; and a
list of already-scored walls yields total increment 0 with every
surviving wall still scored. -/
theorem c4_score_once :
    (∀ w : WallPair, w.scored = false → (w.update).x + 72 < 150 →
      (processWall w).2 = 1 ∧ (processWall w).1.scored = true) ∧
    (∀ w : WallPair, w.scored = true →
      (processWall w).2 = 0 ∧ (processWall w).1.scored = true) ∧
    (∀ w : WallPair, ¬ (w.update).x + 72 < 150 →
      (processWall w).2 = 0 ∧ (processWall w).1.scored = w.scored) ∧
    (∀ (prect : PRect) (ws : List WallPair),
      (∀ w ∈ ws, w.scored = true) →
      (wallPhase prect ws).2.1 = 0 ∧
        ∀ w2 ∈ (wallPhase prect ws).1, w2.scored = true) := by
  have hscored : ∀ w : WallPair, w.scored = true →
      (processWall w).2 = 0 ∧ (processWall w).1.scored = true := by
    intro w h1
    have hc : ¬ ((w.update).scored = false ∧ (w.update).x + 72 < 150) := by
      rw [WallPair.update_scored, h1]; simp
    rw [processWall_eq, if_neg hc]
    exact ⟨rfl, by rw [WallPair.update_scored]; exact h1⟩
  refine ⟨?_, hscored, ?_, ?_⟩
  · intro w h1 h2
    have hc : (w.update).scored = false ∧ (w.update).x + 72 < 150 :=
      ⟨by rw [WallPair.update_scored]; exact h1, h2⟩
    rw [processWall_eq, if_pos hc]
    exact ⟨rfl, rfl⟩
  · intro w h2
    have hc : ¬ ((w.update).scored = false ∧ (w.update).x + 72 < 150) :=
      fun h => h2 h.2
    rw [processWall_eq, if_neg hc]
    exact ⟨rfl, WallPair.update_scored w⟩
  · intro prect ws
    induction ws with
    | nil =>
      intro _
      exact ⟨rfl, by intro w2 hw2; simp [wallPhase] at hw2⟩
    | cons w rest ih =>
      intro hall
      have hw : w.scored = true := hall w (List.mem_cons_self _ _)
      have hsc := hscored w hw
      have ihr := ih (fun l hl => hall l (List.mem_cons_of_mem _ hl))
      simp only [wallPhase]
      by_cases hcol : (processWall w).1.collides prect = true
      · simp only [if_pos hcol]
        refine ⟨hsc.1, ?_⟩
        intro w2 hw2
        rcases List.mem_cons.mp hw2 with h | h
        · rw [h]; exact hsc.2
        · exact hall w2 (List.mem_cons_of_mem _ h)
      · simp only [if_neg hcol]
        refine ⟨by rw [hsc.1, ihr.1], ?_⟩
        intro w2 hw2
        by_cases hoff : (processWall w).1.off_screen = true
        · rw [if_pos hoff] at hw2
          exact ihr.2 w2 hw2
        · rw [if_neg hoff] at hw2
          rcases List.mem_cons.mp hw2 with h | h
          · rw [h]; exact hsc.2
          · exact ihr.2 w2 h

/-- Claim C4, witness: an unscored wall at x = 70 (trailing edge 140
after the move) awards exactly 1 and becomes scored. -/
theorem c4_witness :
    (processWall (WallPair.init 70 200 2 300)).2 = 1 ∧
    (processWall (WallPair.init 70 200 2 300)).1.scored = true :=
  c4_score_once.1 (WallPair.init 70 200 2 300) rfl
    (by norm_num [WallPair.update_x, WallPair.init])

/-- Claim C9 (confirmed): the coin loop credits exactly
`value * (number of coins whose moved hit-box overlaps the player)`,
keeps exactly the moved coins that neither collide nor scroll off, and
every surviving coin is non-colliding — a collected coin is removed and
can never be picked up again. -/
theorem c9_coin_pickup (sinF : ℚ → ℚ) (prect : PRect) (value : ℤ)
    (coins : List Coin) :
    (coinPhase sinF prect value coins).2 =
      value * (((coins.map (Coin.update sinF)).countP
        (fun c => c.collides prect) : ℕ) : ℤ) ∧
    (coinPhase sinF prect value coins).1 =
      (coins.map (Coin.update sinF)).filter
        (fun c => !c.collides prect && !c.off_screen) ∧
    (coinPhase sinF prect value coins).1.all
      (fun c => !c.collides prect) = true := by
  induction coins with
  | nil => exact ⟨by simp [coinPhase], by simp [coinPhase],
      by simp [coinPhase]⟩
  | cons c cs ih =>
    obtain ⟨ih1, ih2, ih3⟩ := ih
    have key : (coinPhase sinF prect value (c :: cs)).2 =
        value * ((((c :: cs).map (Coin.update sinF)).countP
          (fun c => c.collides prect) : ℕ) : ℤ) ∧
        (coinPhase sinF prect value (c :: cs)).1 =
          ((c :: cs).map (Coin.update sinF)).filter
            (fun c => !c.collides prect && !c.off_screen) := by
      simp only [coinPhase, List.map_cons, List.countP_cons,
        List.filter_cons]
      by_cases hcol : (Coin.update sinF c).collides prect = true
      · simp only [if_pos hcol, hcol]
        constructor
        · rw [ih1]; push_cast; ring
        · rw [ih2]; simp
      · have hcol2 : (Coin.update sinF c).collides prect = false :=
          Bool.eq_false_iff.mpr hcol
        by_cases hoff : (Coin.update sinF c).off_screen = true
        · simp only [if_neg hcol, if_pos hoff, hcol2, hoff]
          constructor
          · rw [ih1]; simp
          · rw [ih2]; simp
        · have hoff2 : (Coin.update sinF c).off_screen = false :=
            Bool.eq_false_iff.mpr hoff
          simp only [if_neg hcol, if_neg hoff, hcol2, hoff2]
          constructor
          · rw [ih1]; simp
          · rw [ih2]; simp
    refine ⟨key.1, key.2, ?_⟩
    rw [key.2]
    simp only [List.all_eq_true]
    intro c2 hc2
    have h2 := List.of_mem_filter hc2
    simp only [Bool.and_eq_true] at h2
    exact h2.1

/-- Claim C8 (confirmed): a GAME_OVER frame leaves the player, all
entity collections, the score, the bonus total, the state and all
counters unchanged; only the background drift position changes. -/
theorem c8_gameover_frozen (sinF : ℚ → ℚ) (levels : List Level)
    (o : Oracle) (g : Game) (hst : g.state = GState.gameOver) :
    (Game.update sinF levels o g).player = g.player ∧
    (Game.update sinF levels o g).walls = g.walls ∧
    (Game.update sinF levels o g).enemies = g.enemies ∧
    (Game.update sinF levels o g).coins = g.coins ∧
    (Game.update sinF levels o g).score = g.score ∧
    (Game.update sinF levels o g).coinsCollected = g.coinsCollected ∧
    (Game.update sinF levels o g).state = g.state ∧
    (Game.update sinF levels o g).graceFrames = g.graceFrames ∧
    (Game.update sinF levels o g).enemyTimer = g.enemyTimer ∧
    (Game.update sinF levels o g).levelIdx = g.levelIdx ∧
    (Game.update sinF levels o g).stored = g.stored ∧
    (Game.update sinF levels o g).highScore = g.highScore ∧
    (Game.update sinF levels o g).bgX ≠ g.bgX := by
  have hne : bgStep g.bgX (3/20) ≠ g.bgX := by
    simp only [bgStep]
    split_ifs with h
    · intro heq; linarith
    · intro heq; linarith
  simp [Game.update, hst, hne]

/-- Claim C8, witness: a concrete GAME_OVER frame. -/
theorem c8_witness :
    (Game.update sin0 levels0 oracle0 gOver0).walls = gOver0.walls ∧
    (Game.update sin0 levels0 oracle0 gOver0).score = gOver0.score ∧
    (Game.update sin0 levels0 oracle0 gOver0).bgX ≠ gOver0.bgX :=
  ⟨(c8_gameover_frozen sin0 levels0 oracle0 gOver0 rfl).2.1,
   (c8_gameover_frozen sin0 levels0 oracle0 gOver0 rfl).2.2.2.2.1,
   (c8_gameover_frozen sin0 levels0 oracle0
     gOver0 rfl).2.2.2.2.2.2.2.2.2.2.2.2⟩

/-- Claim C10 (confirmed): a flap received during PLAYING while the
grace period is active (grace_frames > 0) immediately zeroes the
remaining grace frames, and the very next PLAYING physics step runs
with the grace flag false, i.e. with gravity active: the stepped
player's kinematics are those of `Player.update` with `grace = false`. -/
theorem c10_flap_cancels_grace (g : Game)
    (hst : g.state = GState.playing) (hgf : 0 < g.graceFrames) :
    (g.flapInput).graceFrames = 0 ∧
    (∀ (sinF : ℚ → ℚ) (levels : List Level) (o : Oracle),
      (Game.update sinF levels o g.flapInput).player.y =
        (Player.update (g.flapInput).player
          ((levelGet levels ((g.flapInput).score : ℤ)).gravityD)
          false).y ∧
      (Game.update sinF levels o g.flapInput).player.vel =
        (Player.update (g.flapInput).player
          ((levelGet levels ((g.flapInput).score : ℤ)).gravityD)
          false).vel) := by
  have hf : g.flapInput =
      { g with player := g.player.flap, graceFrames := 0 } := by
    simp [Game.flapInput, hst, hgf]
  have hgf0 : (g.flapInput).graceFrames = 0 := by rw [hf]
  refine ⟨hgf0, ?_⟩
  intro sinF levels o
  have hstate : (g.flapInput).state = GState.playing := by rw [hf]; exact hst
  have h1 : Game.update sinF levels o g.flapInput =
      playingStep sinF levels o g.flapInput := by
    simp only [Game.update, hstate]
    simp
  have h2 := playingStep_player_kin sinF levels o g.flapInput
  rw [hgf0] at h2
  have hdec : decide ((0 : ℕ) < 0) = false := rfl
  rw [hdec] at h2
  rw [h1]
  exact h2

/-- Claim C10, witness: flapping at 50 remaining grace frames. -/
theorem c10_witness :
    (Game.flapInput g10).graceFrames = 0 ∧
    (Game.update sin0 levels0 oracle0 (Game.flapInput g10)).player.y =
      (Player.update (Game.flapInput g10).player
        ((levelGet levels0 (((Game.flapInput g10).score : ℕ) : ℤ)).gravityD)
        false).y :=
  ⟨(c10_flap_cancels_grace g10 rfl (by norm_num [g10, gBase])).1,
   ((c10_flap_cancels_grace g10 rfl (by norm_num [g10, gBase])).2
     sin0 levels0 oracle0).1⟩

/-- Claim C2, counterexample to the claim as stated: with the player at
y = 300, the hit-box is (158, 308, 54, 54), and it does NOT overlap the
obstacle body rectangle (150, 0, 72, 280) — 308 is not less than 280 —
so no collision is detected for that obstacle. -/
theorem c2_counterexample :
    Player.rect { Player.init with y := 300 } =
      { x := 158, y := 308, w := 54, h := 54 } ∧
    PRect.colliderect { x := 158, y := 308, w := 54, h := 54 }
      { x := 150, y := 0, w := 72, h := 280 } = false ∧
    WallPair.collides (WallPair.init 150 200 2 380)
      { x := 158, y := 308, w := 54, h := 54 } = false := by
  refine ⟨?_, by decide, ?_⟩ <;> decide

/-- Claim C2 (corrected): collision is detected exactly when the inset
hit-boxes overlap, but the example coordinates must place the player's
hit-box inside the body's vertical span: with the player at y = 200 the
hit-box (158, 208, 54, 54) does overlap the body rectangle
(150, 0, 72, 280), and the PLAYING frame in which the example wall
reaches x = 150 ends in a GAME_OVER transition that frame. -/
theorem c2_collision :
    PRect.colliderect { x := 158, y := 208, w := 54, h := 54 }
      { x := 150, y := 0, w := 72, h := 280 } = true ∧
    (∀ (w : WallPair) (r : PRect),
      w.collides r =
        (w.top_rect.colliderect r || w.bot_rect.colliderect r)) ∧
    WallPair.update wallC2 = WallPair.init 150 200 2 380 ∧
    WallPair.top_rect (WallPair.init 150 200 2 380) =
      { x := 150, y := 0, w := 72, h := 280 } ∧
    Game.update sin0 levels0 oracle0 g2start = g2end ∧
    Player.rect g2end.player = { x := 158, y := 208, w := 54, h := 54 } ∧
    g2end.state = GState.gameOver := by
  refine ⟨by decide, fun w r => rfl, ?_, by decide, ?_, by decide, rfl⟩
  · norm_num [WallPair.update, wallC2, WallPair.init]
  · have h0 : Game.update sin0 levels0 oracle0 g2start =
        playingStep sin0 levels0 oracle0 g2start := rfl
    rw [h0]
    norm_num [playingStep, oracle0, g2start, g2end, gBase, wallC2,
      Player.init, levels0, levelGet, levelIndex, Level.thresholdD,
      Level.gravityD, Level.wall_speedD, Level.gap_sizeD,
      Level.wall_spacingD, Level.enemy_spawn_framesD, Level.coin_valueD,
      Player.update, Player.rect, WallPair.init, WallPair.update,
      processWall, wallPhase, WallPair.collides, WallPair.top_rect,
      WallPair.bot_rect, WallPair.top_h, WallPair.bot_start,
      WallPair.off_screen, PRect.colliderect, bgStep, Game.toGameOver,
      save_highscore, load_highscore, List.getLast?_singleton,
      Bool.and_eq_true, max_def, min_def]

end PL
